import Mathlib

/-
Formal model of the resumable multi-strategy reasoning engine of the
moremi_reasoning repository: a shallow embedding of
  src/core/reasoning_engine.py          (conclusion extractor, verification
                                         classification, strategy search loop),
  src/providers/i_am_handwriting/iam_utils.py
                                        (ProgressTracker, IncrementalResultSaver),
  src/providers/i_am_handwriting/handwriting_ocr_reasoning.py
                                        (worker pool driver, per-future handling),
  src/utils/multimodal_simply.py        (randomized strategy selection path).
Python strings are modelled as Lean String / List Char, file I/O as explicit
state passing, exceptions as explicit Bool flags, and the nondeterminism of
random.choice as an explicit stream parameter.
-/

namespace Moremi

/-! ## String helpers mirroring Python primitives -/

/-- Python whitespace test for the ASCII characters recognised by str.strip
and regex backslash-s (space, tab, newline, carriage return, vertical tab,
form feed). -/
def isPySpace (c : Char) : Bool :=
  c = ' ' || c = '\t' || c = '\n' || c = '\r' || c = '\x0b' || c = '\x0c'

/-- Remove leading Python whitespace, as the leading half of str.strip. -/
def pyStripL : List Char → List Char
  | [] => []
  | c :: cs => if isPySpace c then pyStripL cs else c :: cs

/-- Python str.strip on a character list: drop whitespace at both ends. -/
def pyStrip (l : List Char) : List Char :=
  (pyStripL (pyStripL l.reverse).reverse)

/-- Python str.lower, character by character (ASCII case). -/
def lowerL (l : List Char) : List Char := l.map Char.toLower

/-- Python substring test (the in operator on str), case sensitive. -/
def containsL (needle : List Char) : List Char → Bool
  | [] => needle.isEmpty
  | l@(_ :: t) => needle.isPrefixOf l || containsL needle t

/-- Case-insensitive anchored match of a lowercase literal needle against the
head of the haystack, as used when a regex with the IGNORECASE flag tries a
literal alternative at one position. -/
def prefixCI : List Char → List Char → Bool
  | [], _ => true
  | _ :: _, [] => false
  | a :: as, b :: bs => (a == b.toLower) && prefixCI as bs

/-- Try a list of lowercase literal alternatives, in regex alternation
priority order, at the head of the haystack; on success return the suffix
after the matched literal. -/
def matchLitsCI : List (List Char) → List Char → Option (List Char)
  | [], _ => none
  | n :: ns, hay =>
      if prefixCI n hay then some (hay.drop n.length) else matchLitsCI ns hay

/-- Leftmost search for any of the literal alternatives, mirroring re.search
scanning start positions left to right; returns the suffix after the match. -/
def searchLitsCI (lits : List (List Char)) : List Char → Option (List Char)
  | [] => matchLitsCI lits []
  | l@(_ :: t) =>
      match matchLitsCI lits l with
      | some rest => some rest
      | none => searchLitsCI lits t

/-- Leftmost search with an arbitrary per-position attempt, mirroring
re.search over a pattern whose match at one position is decided by the
attempt function. -/
def searchPos (attempt : List Char → Option (List Char)) :
    List Char → Option (List Char)
  | [] => attempt []
  | l@(_ :: t) =>
      match attempt l with
      | some r => some r
      | none => searchPos attempt t

/-- Lazy capture of a regex group of the form dot-star-lazy followed by a
terminator alternation that always admits the end of input: take characters
until the terminator test succeeds on the remaining suffix, or to the end.
The captured group is always stripped by the source afterwards, which makes
the end-of-string versus before-final-newline distinction of the dollar
anchor immaterial. -/
def takeUntilTerm (isTerm : List Char → Bool) : List Char → List Char
  | [] => []
  | c :: cs => if isTerm (c :: cs) then [] else c :: takeUntilTerm isTerm cs

/-- Lazy capture requiring at least one character (dot-plus-lazy): the first
character is always consumed, then the terminator is searched as in
takeUntilTerm. -/
def takeUntilTerm1 (isTerm : List Char → Bool) : List Char → List Char
  | [] => []
  | c :: cs => c :: takeUntilTerm isTerm cs

/-! ## Verification classification, from check_answer_accuracy
    (src/core/reasoning_engine.py lines 366 to 376) -/

/-- Classification step of check_answer_accuracy applied to the raw
verification reply: lowercase and strip the reply, classify as correct when
it contains true and not false, or else when it starts with true, or else
when it equals true. -/
def check_answer_classify (verification : String) : Bool :=
  let v := pyStrip (lowerL verification.data)
  if containsL "true".data v && !(containsL "false".data v) then true
  else if "true".data.isPrefixOf v || v == "true".data then true
  else false

/-- The classification the specification describes: the reply contains the
substring true (case-insensitive) and does not contain false. Stated from
the words of the spec, for comparison with check_answer_classify. -/
def spec_classify (verification : String) : Bool :=
  let v := lowerL verification.data
  containsL "true".data v && !(containsL "false".data v)

/-! ## Incremental result store, from IncrementalResultSaver.append_result
    (src/providers/i_am_handwriting/iam_utils.py lines 100 to 129) -/

/-- Backing document of the result store: either a parsed JSON array of
result records (records modelled as opaque strings) or an unparsable
document, which json.load rejects with JSONDecodeError. -/
inductive StoreDoc
  | parsed (records : List String)
  | corrupt
  deriving DecidableEq

/-- Outcome of one append_result call: the resulting store document, whether
an exception propagated to the caller, and whether an error was logged. -/
structure AppendOutcome where
  store : StoreDoc
  raised : Bool
  logged : Bool
  deriving DecidableEq

/-- Model of IncrementalResultSaver.append_result. A JSONDecodeError while
reading makes the code start from the empty list; the record is appended and
the document written back. Any exception in the surrounding try block
(modelled by the writeFails flag) is caught, logged, and explicitly not
re-raised, per the comment in the source: do not raise, we do not want to
stop processing for save errors. The bytes left on disk by a failed write
are not modelled; the document field is left as it was. -/
def append_result (doc : StoreDoc) (record : String) (writeFails : Bool) :
    AppendOutcome :=
  if writeFails then
    { store := doc, raised := false, logged := true }
  else
    let data := match doc with
      | StoreDoc.parsed rs => rs
      | StoreDoc.corrupt => []
    { store := StoreDoc.parsed (data ++ [record]), raised := false, logged := false }

/-! ## Progress tracker, from ProgressTracker
    (src/providers/i_am_handwriting/iam_utils.py lines 40 to 67) -/

/-- State of a ProgressTracker: the in-memory set of processed ids, and the
contents of the durable progress file (its id set and its total_processed
count). -/
structure TrackerState where
  mem : Finset String
  disk : Finset String
  diskTotal : Nat

/-- Outcome of one mark_processed call. -/
structure MarkOutcome where
  state : TrackerState
  raised : Bool
  logged : Bool

/-- Model of ProgressTracker.is_processed: a pure membership check on the
in-memory set; it takes the state and returns a Bool without producing a new
state. -/
def is_processed (s : TrackerState) (id : String) : Bool :=
  decide (id ∈ s.mem)

/-- Model of ProgressTracker.mark_processed: add the id to the in-memory set,
then persist via save_progress. The persistence step writes the whole set
and its cardinality as total_processed; a write failure (writeFails) is
caught inside save_progress, logged, and not re-raised, leaving the previous
durable state intact thanks to the write-temp-then-rename sequence. -/
def mark_processed (s : TrackerState) (id : String) (writeFails : Bool) :
    MarkOutcome :=
  let mem := insert id s.mem
  if writeFails then
    { state := { mem := mem, disk := s.disk, diskTotal := s.diskTotal },
      raised := false, logged := true }
  else
    { state := { mem := mem, disk := mem, diskTotal := mem.card },
      raised := false, logged := false }

/-! ## Worker pool driver, from run_handwriting_ocr_reasoning
    (src/providers/i_am_handwriting/handwriting_ocr_reasoning.py
     lines 300 to 335) -/

/-- Observable durable-effect events emitted while handling one completed
worker future. -/
inductive DriverEvent
  | appendResult (id : String)
  | markProcessed (id : String)
  deriving DecidableEq

/-- Model of the per-future handling in the as_completed loop of
run_handwriting_ocr_reasoning. When future.result() returns normally the
driver appends the result record and then marks the id processed. When the
future raises, the except branch first marks the id processed, then builds
the error record and appends it. -/
def handleCompletedFuture (id : String) (futureRaised : Bool) :
    List DriverEvent :=
  if futureRaised then
    [DriverEvent.markProcessed id, DriverEvent.appendResult id]
  else
    [DriverEvent.appendResult id, DriverEvent.markProcessed id]

/-! ## Strategy search state machine, from
    ReasoningStrategies.apply_all_strategies
    (src/core/reasoning_engine.py lines 431 to 560) -/

/-- Configuration consumed by apply_all_strategies: the search bounds from
the config mapping, the max_strategies parameter of the function (default 3
in the source), the efficient_search flag, the strategy list built by
load_strategies (four name and prompt pairs in a fixed order), the guided
prompt, and the presence of ground truth, gpt instance and context data
(Python truthiness of those values). -/
structure SearchConfig where
  max_search_attempts : Nat
  max_search_depth : Nat
  max_strategies : Nat
  efficient_search : Bool
  strategies : List (String × String)
  guided_prompt : String
  ground_truth : String
  has_gpt : Bool
  has_context : Bool

/-- Environment abstracting the external inference service: the verification
oracle outcome of check_answer_accuracy for a candidate result, the extracted
result and the raw reasoning text returned by the k-th refinement call of
apply_strategy, and the reply of the single guided call. -/
structure SearchEnv where
  oracle : String → Bool
  refineResult : Nat → String → String
  refineReasoning : Nat → String
  guidedResult : String

/-- Mutable state of one apply_all_strategies run, extended with counters for
the inference calls issued by refinement strategies, by the guided fallback,
and by the verification oracle, and with a log recording for every
refinement call the value of the outer attempt counter and the name of the
strategy selected. -/
structure SearchState where
  current_result : String
  strategies_used : List String
  reasoning_trace : List String
  found_correct_answer : Bool
  refineCalls : Nat
  guidedCalls : Nat
  oracleCalls : Nat
  callLog : List (Nat × String)
  deriving DecidableEq

/-- The strategy list built by ReasoningStrategies.load_strategies: a fixed
ordered list of four entries whose prompts come from the prompts file. -/
def standardStrategies (pB pE pV pC : String) : List (String × String) :=
  [("Backtracking", pB), ("Exploring New Paths", pE),
   ("Verification", pV), ("Correction", pC)]

/-- One execution of the inner for-depth loop of apply_all_strategies, with
dRem iterations remaining and dIdx the current zero-based depth index. Each
iteration: break when strategies_used has reached max_strategies; select the
strategy at index search_attempts modulo the list length (the source list
always has four entries, so the out-of-range branch is unreachable); skip
the iteration when the prompt is empty; otherwise apply_strategy issues one
inference call and returns the extracted result; when the result changed,
record it and, when ground truth and a gpt instance are present, issue one
verification call, breaking out of the loop when it reports correct. -/
def depthLoop (cfg : SearchConfig) (env : SearchEnv) (a : Nat) :
    Nat → Nat → SearchState → SearchState
  | 0, _, s => s
  | dRem + 1, dIdx, s =>
    if cfg.max_strategies ≤ s.strategies_used.length then s
    else
      match cfg.strategies[a % cfg.strategies.length]? with
      | none => depthLoop cfg env a dRem (dIdx + 1) s
      | some (name, prompt) =>
        if prompt == "" then depthLoop cfg env a dRem (dIdx + 1) s
        else
          let newResult := env.refineResult s.refineCalls s.current_result
          let s1 : SearchState :=
            { s with refineCalls := s.refineCalls + 1,
                     callLog := s.callLog ++ [(a, name)] }
          if newResult == s.current_result then
            depthLoop cfg env a dRem (dIdx + 1) s1
          else
            let s2 : SearchState :=
              { s1 with
                  current_result := newResult,
                  strategies_used := s1.strategies_used ++
                    ["Attempt " ++ toString (a + 1) ++ "-" ++
                     toString (dIdx + 1) ++ ": " ++ name],
                  reasoning_trace := s1.reasoning_trace ++
                    [env.refineReasoning s.refineCalls] }
            if cfg.ground_truth != "" && cfg.has_gpt then
              let s3 : SearchState :=
                { s2 with oracleCalls := s2.oracleCalls + 1,
                          found_correct_answer := env.oracle newResult }
              if s3.found_correct_answer then s3
              else depthLoop cfg env a dRem (dIdx + 1) s3
            else depthLoop cfg env a dRem (dIdx + 1) s2

/-- The outer while loop of apply_all_strategies: with fuel iterations
allowed (max_search_attempts minus the current attempt counter a), stop when
a correct answer was found, otherwise run the depth loop, increment the
attempt counter, and break when the depth loop found a correct answer. -/
def outerLoop (cfg : SearchConfig) (env : SearchEnv) :
    Nat → Nat → SearchState → SearchState
  | 0, _, s => s
  | fuel + 1, a, s =>
    if s.found_correct_answer then s
    else
      let s1 := depthLoop cfg env a cfg.max_search_depth 0 s
      if s1.found_correct_answer then s1
      else outerLoop cfg env fuel (a + 1) s1

/-- Initial phase of apply_all_strategies: when ground truth and a gpt
instance are present, one verification call checks the initial result. -/
def initialPhase (cfg : SearchConfig) (env : SearchEnv)
    (initial : String) : SearchState :=
  let s0 : SearchState :=
    { current_result := initial, strategies_used := [],
      reasoning_trace := [], found_correct_answer := false,
      refineCalls := 0, guidedCalls := 0, oracleCalls := 0, callLog := [] }
  if cfg.ground_truth != "" && cfg.has_gpt then
    { s0 with oracleCalls := 1,
              found_correct_answer := env.oracle initial }
  else s0

/-- Guided fallback of apply_all_strategies: when the loop ended without a
verified correct answer and efficient_search is enabled with ground truth
and a gpt instance present, and the guided prompt and the context data are
present, one guided inference call is issued; a non-empty reply becomes the
current result, Guided Analysis is recorded, and found_correct_answer is set
to true by policy, with no further verification call. -/
def guidedPhase (cfg : SearchConfig) (env : SearchEnv)
    (s : SearchState) : SearchState :=
  if !s.found_correct_answer && cfg.efficient_search &&
      cfg.ground_truth != "" && cfg.has_gpt then
    if cfg.guided_prompt != "" && cfg.has_context then
      let s1 : SearchState := { s with guidedCalls := s.guidedCalls + 1 }
      if env.guidedResult != "" then
        { s1 with
            current_result := env.guidedResult,
            strategies_used := s1.strategies_used ++ ["Guided Analysis"],
            reasoning_trace := s1.reasoning_trace ++ [env.guidedResult],
            found_correct_answer := true }
      else s1
    else s
  else s

/-- Full model of apply_all_strategies: initial verification, early return
when the initial result is already correct (with the fixed strategies_used
and reasoning_trace of that branch), otherwise the search loop followed by
the guided fallback. -/
def apply_all_strategies (cfg : SearchConfig) (env : SearchEnv)
    (initial : String) : SearchState :=
  let s := initialPhase cfg env initial
  if s.found_correct_answer then
    { s with strategies_used := ["Initial response was correct"],
             reasoning_trace := [initial] }
  else
    guidedPhase cfg env (outerLoop cfg env cfg.max_search_attempts 0 s)

/-! ## Randomized strategy selection, from process_sample
    (src/utils/multimodal_simply.py lines 426 to 442) -/

/-- Names of the entries of the search_strategies list of
multimodal_simply.py, in their fixed order. -/
def simplyStrategyNames : List String :=
  ["Backtracking", "Exploring New Paths", "Verification", "Correction"]

/-- Model of the strategy selection performed by process_sample inside its
refinement loop: random.choice(search_strategies) picks an element whose
index is drawn from a source of randomness, modelled as an explicit stream
giving the drawn index for each refinement call. The selection depends on
the stream, not on the attempt counter. -/
def simplyChooseStrategy (randomStream : Nat → Fin 4) (callIdx : Nat) :
    String :=
  simplyStrategyNames.getD (randomStream callIdx).val ""

/-! ## Conclusion extractor, from extract_final_conclusion
    (src/core/reasoning_engine.py lines 161 to 338).
    Each regex of the source is embedded as a scanning function implementing
    the leftmost-match semantics of re.search for that pattern: literal
    alternations (expanded with their optional parts in greedy priority
    order), a greedy whitespace skip, and a lazy capture running to the
    earliest occurrence of the terminator alternation or to the end of the
    input; the source strips every captured group, which makes the
    end-of-string versus before-final-newline distinction of the dollar
    anchor immaterial. -/

/-- Python re.sub replacing double-star emphasis around a nonempty run of
non-star characters by the run itself, over the whole string with
non-overlapping leftmost matches. The fuel argument makes the recursion
structural so that evaluation reduces inside the kernel; every step consumes
at least one character, so a fuel of length plus one never runs out and the
fuel-exhausted base case is unreachable. -/
def subBoldF : Nat → List Char → List Char
  | 0, l => l
  | _ + 1, [] => []
  | fuel + 1, '*' :: '*' :: rest =>
      let rest2 := rest.dropWhile (fun c => c != '*')
      if !(rest.takeWhile (fun c => c != '*')).isEmpty &&
         "**".data.isPrefixOf rest2 then
        rest.takeWhile (fun c => c != '*') ++ subBoldF fuel (rest2.drop 2)
      else
        '*' :: subBoldF fuel ('*' :: rest)
  | fuel + 1, c :: rest => c :: subBoldF fuel rest

/-- The double-star substitution at its safe fuel bound. -/
def subBold (l : List Char) : List Char := subBoldF (l.length + 1) l

/-- Python re.sub replacing single-star emphasis around a nonempty run of
non-star characters by the run itself, over the whole string with
non-overlapping leftmost matches; fuel as in subBoldF. -/
def subItalF : Nat → List Char → List Char
  | 0, l => l
  | _ + 1, [] => []
  | fuel + 1, '*' :: rest =>
      let rest2 := rest.dropWhile (fun c => c != '*')
      if !(rest.takeWhile (fun c => c != '*')).isEmpty &&
         rest2.head? == some '*' then
        rest.takeWhile (fun c => c != '*') ++ subItalF fuel (rest2.drop 1)
      else
        '*' :: subItalF fuel rest
  | fuel + 1, c :: rest => c :: subItalF fuel rest

/-- The single-star substitution at its safe fuel bound. -/
def subItal (l : List Char) : List Char := subItalF (l.length + 1) l

/-- Python re.sub deleting, from a newline followed by a double-star Visual
Presentation header (case sensitive) through the end of the string. -/
def truncVisual (l : List Char) : List Char :=
  takeUntilTerm (fun s => "\n**Visual Presentation".data.isPrefixOf s) l

/-- Python re.findall of a quote, a run of at least minLen non-quote
characters, and a closing quote: non-overlapping leftmost matches. When the
run between an opening quote and the next quote is too short the opening
fails and scanning resumes at that next quote; fuel as in subBoldF. -/
def quoteScanF (minLen : Nat) : Nat → List Char → List (List Char)
  | 0, _ => []
  | _ + 1, [] => []
  | fuel + 1, '"' :: rest =>
      (match rest.dropWhile (fun c => c != '"') with
      | '"' :: after =>
          if minLen ≤ (rest.takeWhile (fun c => c != '"')).length then
            rest.takeWhile (fun c => c != '"') :: quoteScanF minLen fuel after
          else quoteScanF minLen fuel ('"' :: after)
      | _ => [])
  | fuel + 1, _ :: rest => quoteScanF minLen fuel rest

/-- The quote scan at its safe fuel bound. -/
def quoteScan (minLen : Nat) (l : List Char) : List (List Char) :=
  quoteScanF minLen (l.length + 1) l

/-- Python max over a nonempty list with the length key: the first element
of maximal length. -/
def maxByLen (l : List (List Char)) : List Char :=
  match l with
  | [] => []
  | x :: xs =>
      xs.foldl (fun best cur => if best.length < cur.length then cur else best) x

/-- Python str.split on a blank-line separator (two newlines),
non-overlapping leftmost, keeping empty pieces. -/
def splitNN : List Char → List Char → List (List Char)
  | '\n' :: '\n' :: rest, acc => acc.reverse :: splitNN rest []
  | c :: rest, acc => splitNN rest (c :: acc)
  | [], acc => [acc.reverse]

/-- Python str.split on a single newline. -/
def splitNL : List Char → List Char → List (List Char)
  | '\n' :: rest, acc => acc.reverse :: splitNL rest []
  | c :: rest, acc => splitNL rest (c :: acc)
  | [], acc => [acc.reverse]

/-- Header alternatives of the Final Conclusion patterns, with the optional
apostrophes expanded in greedy priority order, lowercase for the
IGNORECASE flag. -/
def fcHeaders : List (List Char) :=
  (["**'final conclusion'**", "**'final conclusion**",
    "**final conclusion'**", "**final conclusion**"]).map String.data

/-- Verification header alternatives terminating the first Final Conclusion
pattern, with the optional apostrophes expanded. -/
def verifHeaders : List (List Char) :=
  (["**'verification'**", "**'verification**",
    "**verification'**", "**verification**"]).map String.data

/-- Terminator of the first Final Conclusion pattern: a Verification header,
optionally preceded by a blank line, or the end of the input. -/
def p1Term (l : List Char) : Bool :=
  verifHeaders.any (fun v => prefixCI v l) ||
  ("\n\n".data.isPrefixOf l && verifHeaders.any (fun v => prefixCI v (l.drop 2)))

/-- First conclusion pattern of the source: a Final Conclusion header with
an optional colon, greedy whitespace, then a lazy capture to the
terminator. -/
def applyP1 (t : List Char) : Option (List Char) :=
  match searchLitsCI fcHeaders t with
  | none => none
  | some rest =>
      let rest1 := match rest with
        | ':' :: r => r
        | r => r
      some (takeUntilTerm p1Term (rest1.dropWhile isPySpace))

/-- Terminator of the second Final Conclusion pattern: a blank line followed
by a double star, or a double star not followed by an optionally quoted
Final word (the negative lookahead of the source), or the end. -/
def p2Term (l : List Char) : Bool :=
  "\n\n**".data.isPrefixOf l ||
  ("**".data.isPrefixOf l &&
    !(prefixCI "'final".data (l.drop 2) || prefixCI "final".data (l.drop 2)))

/-- Second conclusion pattern of the source: the header without colon
handling, greedy whitespace, lazy capture to its terminator. -/
def applyP2 (t : List Char) : Option (List Char) :=
  match searchLitsCI fcHeaders t with
  | none => none
  | some rest => some (takeUntilTerm p2Term (rest.dropWhile isPySpace))

/-- Lazy scan to the earliest occurrence of the word is or are
(case-insensitive), as in the transcribed-text intro pattern; returns the
suffix after the match. -/
def findIsAre : List Char → Option (List Char)
  | [] => none
  | l@(_ :: t) =>
      if prefixCI "is".data l then some (l.drop 2)
      else if prefixCI "are".data l then some (l.drop 3)
      else findIsAre t

/-- Alternatives of the optional-as follows part of the intro pattern, with
the optional pieces expanded in greedy priority order. -/
def followsLits : List (List Char) :=
  (["as follows:", "as follow:", "follows:", "follow:"]).map String.data

/-- Lazy scan to the earliest follows alternative; returns the suffix after
the match. -/
def findFollows : List Char → Option (List Char)
  | [] => none
  | l@(_ :: t) =>
      match matchLitsCI followsLits l with
      | some r => some r
      | none => findFollows t

/-- The anchored re.match of the intro pattern applied to the stripped
conclusion in the ocr content type: the transcribed text prefix, a lazy gap
to is or are, a lazy gap to a follows alternative with colon, greedy
whitespace, then the rest of the string as the capture. -/
def introMatch (l : List Char) : Option (List Char) :=
  if prefixCI "the transcribed text".data l then
    match findIsAre (l.drop 20) with
    | none => none
    | some rest =>
        match findFollows rest with
        | none => none
        | some rest2 => some (rest2.dropWhile isPySpace)
  else none

/-- Per-pattern handling inside the Final Conclusion branch: strip the
capture; in the ocr content type, when the intro pattern matches and its
capture strips to a nonempty string, return that; otherwise remove the
emphasis markup and return the result when longer than ten characters. -/
def tryConclusionPattern (ct : String) (g1 : List Char) : Option (List Char) :=
  let result := pyStrip g1
  let fromIntro : Option (List Char) :=
    if lowerL ct.data == "ocr".data then
      match introMatch result with
      | some cap =>
          let actual := pyStrip cap
          if actual.isEmpty then none else some actual
      | none => none
    else none
  match fromIntro with
  | some a => some a
  | none =>
      let r := subItal (subBold result)
      if 10 < r.length then some r else none

/-- The structured-reasoning branch of the extractor: entered when the text
contains a Final Conclusion header (case sensitive, with or without
apostrophes); the two conclusion patterns are tried in order. -/
def branchA (t : List Char) (ct : String) : Option (List Char) :=
  if containsL "**'Final Conclusion'**".data t ||
     containsL "**Final Conclusion**".data t then
    match applyP1 t with
    | some g1 =>
        match tryConclusionPattern ct g1 with
        | some r => some r
        | none =>
            match applyP2 t with
            | some g2 => tryConclusionPattern ct g2
            | none => none
    | none =>
        match applyP2 t with
        | some g2 => tryConclusionPattern ct g2
        | none => none
  else none

/-- Terminator of the first five ocr patterns: a blank line followed by a
double star, or the end. -/
def termA (l : List Char) : Bool := "\n\n**".data.isPrefixOf l

/-- Terminator of the remaining phrase patterns: a blank line, or the end of
the string. -/
def termB (l : List Char) : Bool := "\n\n".data.isPrefixOf l

/-- Shared shape of the phrase patterns: leftmost occurrence of a literal
alternative, greedy whitespace, lazy capture to the terminator. -/
def applyLitPat (lits : List (List Char)) (term : List Char → Bool)
    (t : List Char) : Option (List Char) :=
  match searchLitsCI lits t with
  | none => none
  | some rest => some (takeUntilTerm term (rest.dropWhile isPySpace))

/-- Alternatives of the first ocr pattern. -/
def ocr1Lits : List (List Char) :=
  (["here's the transcribed text:", "here is the transcribed text:"]).map
    String.data

/-- Alternatives of the second ocr pattern, expanding the optional
handwritten and in-the-image pieces and the verb alternation in greedy
priority order. -/
def ocr2Lits : List (List Char) :=
  ((["handwritten ", ""].flatMap fun h =>
    ["in the image ", ""].flatMap fun im =>
      ["reads", "read", "says", "say", "is"].map fun v =>
        "the " ++ h ++ "text " ++ im ++ v ++ ":")).map String.data

/-- Alternatives of the third ocr pattern. -/
def ocr3Lits : List (List Char) :=
  (["transcription:", "transcribed text:", "extracted text:",
    "final transcription:"]).map String.data

/-- Alternative of the fourth ocr pattern. -/
def ocr4Lits : List (List Char) := (["**transcription**:"]).map String.data

/-- Alternatives of the fifth ocr pattern. -/
def ocr5Lits : List (List Char) :=
  (["handwritten text:", "visible text:", "text content:"]).map String.data

/-- Alternatives of the sixth ocr pattern, shared verbatim with the first
general pattern. -/
def ocr6Lits : List (List Char) :=
  (["final conclusion:", "in conclusion:", "therefore:", "thus:",
    "to conclude:", "in summary:"]).map String.data

/-- Alternatives of the seventh ocr pattern, shared verbatim with the second
general pattern. -/
def ocr7Lits : List (List Char) :=
  (["the answer is:", "my answer is:", "i conclude that:"]).map String.data

/-- Alternatives of the eighth ocr pattern: the group alternatives of the
source each followed by the colon that follows the group. -/
def ocr8Lits : List (List Char) :=
  ([":diagnosis is:", "diagnosis::", "final diagnosis::"]).map String.data

/-- The eight ocr patterns, in source order, paired with their
terminators. -/
def ocrPats : List (List (List Char) × (List Char → Bool)) :=
  [(ocr1Lits, termA), (ocr2Lits, termA), (ocr3Lits, termA), (ocr4Lits, termA),
   (ocr5Lits, termA), (ocr6Lits, termB), (ocr7Lits, termB), (ocr8Lits, termB)]

/-- Post-processing of an ocr pattern capture: remove emphasis markup, then
delete a trailing Visual Presentation section. -/
def ocrPost (r : List Char) : List Char := truncVisual (subItal (subBold r))

/-- Try the ocr patterns in order; a capture that post-processes to more
than ten characters is returned, otherwise the next pattern is tried. -/
def tryPatsOCR :
    List (List (List Char) × (List Char → Bool)) → List Char →
      Option (List Char)
  | [], _ => none
  | (lits, term) :: ps, t =>
      match applyLitPat lits term t with
      | some g1 =>
          let r := ocrPost (pyStrip g1)
          if 10 < r.length then some r else tryPatsOCR ps t
      | none => tryPatsOCR ps t

/-- Quoted-content heuristic of the ocr branch: the source lists the same
quote pattern twice, so a single scan is faithful; the first longest quoted
run of at least twenty characters is returned, stripped, when strictly
longer than twenty characters. -/
def branchBQuotes (t : List Char) : Option (List Char) :=
  let ms := quoteScan 20 t
  if ms.isEmpty then none
  else
    let longest := maxByLen ms
    if 20 < longest.length then some (pyStrip longest) else none

/-- Skip phrases of the line-collection heuristic, in source order. -/
def skipPhrases : List (List Char) :=
  (["the text is", "visual presentation", "handwriting", "organized",
    "here's the", "the image contains", "transcribed text", "transcription:",
    "extracted text", "final transcription", "the answer is", "my answer is",
    "i conclude that", "diagnosis is", "final diagnosis", "findings:"]).map
    String.data

/-- Test for an ASCII uppercase first character, as the anchored character
class of the source. -/
def startsUpper (l : List Char) : Bool :=
  match l with
  | c :: _ => 'A' ≤ c && c ≤ 'Z'
  | [] => false

/-- The line-collection loop of the ocr branch: strip each line; a blank
line ends collection once something was collected; a line containing a skip
phrase is skipped before collection starts and ends collection afterwards;
a line starting with an uppercase letter and longer than ten characters
starts or continues collection; other lines are kept only while
collecting. -/
def collectLines : List (List Char) → Bool → List (List Char) →
    List (List Char)
  | [], _, acc => acc.reverse
  | line :: rest, collecting, acc =>
      let l := pyStrip line
      if l.isEmpty then
        if collecting && !acc.isEmpty then acc.reverse
        else collectLines rest collecting acc
      else if skipPhrases.any (fun ph => containsL ph (lowerL l)) then
        if !collecting then collectLines rest collecting acc
        else acc.reverse
      else if startsUpper l && 10 < l.length then
        collectLines rest true (l :: acc)
      else if collecting then collectLines rest collecting (l :: acc)
      else collectLines rest collecting acc

/-- Line-collection heuristic of the ocr branch: join the collected lines
with newlines, strip, and return the result when longer than twenty
characters. -/
def branchBLines (t : List Char) : Option (List Char) :=
  let collected := collectLines (splitNL t []) false []
  if collected.isEmpty then none
  else
    let result := pyStrip (List.intercalate ['\n'] collected)
    if 20 < result.length then some result else none

/-- The ocr branch: the eight phrase patterns, then the quoted-content
heuristic, then the line-collection heuristic. -/
def branchB (t : List Char) : Option (List Char) :=
  match tryPatsOCR ocrPats t with
  | some r => some r
  | none =>
      match branchBQuotes t with
      | some r => some r
      | none => branchBLines t

/-- Alternatives of the first medical pattern, expanding the optional s. -/
def med1Lits : List (List Char) :=
  (["final diagnosis", "diagnosis:", "findings:", "finding:",
    "conclusion:"]).map String.data

/-- Anchored match of a literal alternative that must be followed by at
least one whitespace character, returning the suffix starting at that
whitespace, as for patterns whose capture is preceded by one-or-more
whitespace. -/
def matchLitsSpace : List (List Char) → List Char → Option (List Char)
  | [], _ => none
  | n :: ns, hay =>
      if prefixCI n hay &&
         (match hay.drop n.length with
          | c :: _ => isPySpace c
          | [] => false) then some (hay.drop n.length)
      else matchLitsSpace ns hay

/-- Lazy scan to the earliest occurrence of a literal followed by at least
one whitespace character, for the lazy gaps of the second medical
pattern. -/
def findLitThenSpace (lit : List Char) : List Char → Option (List Char)
  | [] => none
  | l@(_ :: t) =>
      if prefixCI lit l &&
         (match l.drop lit.length with
          | c :: _ => isPySpace c
          | [] => false) then some (l.drop lit.length)
      else findLitThenSpace lit t

/-- Per-position attempt of the second medical pattern: the patient followed
by a lazy gap to has, or consistent with, or diagnosis followed by a lazy
gap to is, each followed by at least one whitespace character; alternatives
tried in source priority order. -/
def med2At (l : List Char) : Option (List Char) :=
  match (if prefixCI "the patient".data l
         then findLitThenSpace "has".data (l.drop 11) else none) with
  | some r => some r
  | none =>
      match matchLitsSpace ["consistent with".data] l with
      | some r => some r
      | none =>
          if prefixCI "diagnosis".data l
          then findLitThenSpace "is".data (l.drop 9) else none

/-- Terminator consisting of a literal dot, for patterns ending in a dot or
the end of the string. -/
def dotTerm (l : List Char) : Bool := l.head? == some '.'

/-- The second medical pattern: leftmost position where an alternative
matches, greedy whitespace, lazy capture to a dot or the end. -/
def applyMed2 (t : List Char) : Option (List Char) :=
  match searchPos med2At t with
  | none => none
  | some spaceSuffix =>
      some (takeUntilTerm dotTerm (spaceSuffix.dropWhile isPySpace))

/-- Alternatives of the third medical pattern, expanding the optional comma
in greedy priority order. -/
def med3Lits : List (List Char) :=
  (["therefore,", "therefore", "thus,", "thus",
    "in conclusion,", "in conclusion"]).map String.data

/-- Strip a capture and keep it when longer than ten characters, the shared
gate of the medical and general pattern loops. -/
def gate10 (o : Option (List Char)) : Option (List Char) :=
  match o with
  | some g =>
      let r := pyStrip g
      if 10 < r.length then some r else none
  | none => none

/-- The medical branch: its three patterns in order, each gated on more
than ten characters after stripping. -/
def branchC (t : List Char) : Option (List Char) :=
  match gate10 (applyLitPat med1Lits termB t) with
  | some r => some r
  | none =>
      match gate10 (applyMed2 t) with
      | some r => some r
      | none => gate10 (applyLitPat med3Lits termB t)

/-- Alternatives of the third general pattern, expanding the optional comma
in greedy priority order. -/
def gen3Lits : List (List Char) :=
  (["so,", "so", "therefore,", "therefore", "thus,", "thus"]).map String.data

/-- The third general pattern: a connective followed by at least one
whitespace character, greedy whitespace, then a lazy capture of at least one
character to a dot or the end. When only whitespace remains the regex still
matches, capturing a whitespace character that the subsequent strip removes;
the model captures the empty string, which strips identically. -/
def applyGen3 (t : List Char) : Option (List Char) :=
  match searchPos (matchLitsSpace gen3Lits) t with
  | none => none
  | some spaceSuffix =>
      some (takeUntilTerm1 dotTerm (spaceSuffix.dropWhile isPySpace))

/-- The general branch: the first two phrase patterns are textually
identical to the sixth and seventh ocr patterns, then the connective
pattern; each gated on more than ten characters after stripping. -/
def branchD (t : List Char) : Option (List Char) :=
  match gate10 (applyLitPat ocr6Lits termB t) with
  | some r => some r
  | none =>
      match gate10 (applyLitPat ocr7Lits termB t) with
      | some r => some r
      | none => gate10 (applyGen3 t)

/-- Quoted-content fallback: the first longest quoted run of at least one
character, returned unstripped when strictly longer than twenty
characters. -/
def branchE (t : List Char) : Option (List Char) :=
  let qs := quoteScan 1 t
  if qs.isEmpty then none
  else
    let longest := maxByLen qs
    if 20 < longest.length then some longest else none

/-- Reasoning-metadata markers of the paragraph fallback, in source
order. -/
def metaMarkers : List (List Char) :=
  (["inner thinking", "verification", "let me", "okay", "now",
    "wait", "hmm", "alright", "putting it all together"]).map String.data

/-- Paragraph fallback: split on blank lines, strip, drop empty pieces;
return the first longest paragraph free of metadata markers, or the last
paragraph when every paragraph contains one. -/
def branchF (t : List Char) : Option (List Char) :=
  let paragraphs := ((splitNN t []).map pyStrip).filter (fun p => !p.isEmpty)
  if paragraphs.isEmpty then none
  else
    let content := paragraphs.filter
      (fun p => !(metaMarkers.any (fun m => containsL m (lowerL p))))
    if !content.isEmpty then some (maxByLen content)
    else some ((paragraphs.getLast?).getD [])

/-- Ultimate fallback: the stripped last two hundred characters when the
text is longer than that, otherwise the text itself. -/
def branchG (t : List Char) : List Char :=
  if 200 < t.length then pyStrip (t.drop (t.length - 200)) else t

/-- Model of extract_final_conclusion: the empty string for empty or
whitespace-only input; otherwise the stripped text runs through the
structured-reasoning branch, the ocr branch, the medical branch, the general
patterns, the quote fallback, the paragraph fallback, and the final
fallback, in source order. -/
def extract_final_conclusion (text : String) (content_type : String) :
    String :=
  if (pyStrip text.data).isEmpty then ""
  else
    let t := pyStrip text.data
    match branchA t content_type with
    | some r => String.mk r
    | none =>
      match (if content_type == "ocr" then branchB t else none) with
      | some r => String.mk r
      | none =>
        match (if content_type == "medical" then branchC t else none) with
        | some r => String.mk r
        | none =>
          match branchD t with
          | some r => String.mk r
          | none =>
            match branchE t with
            | some r => String.mk r
            | none =>
              match branchF t with
              | some r => String.mk r
              | none => String.mk (branchG t)

/-! ## Concrete configurations and environments used to evaluate the search
    machine on the scenario of the bounded-search property -/

/-- Configuration of the bounded-search scenario: max_search_attempts two,
max_search_depth two, the max_strategies default of three from the function
signature, efficient_search enabled, the four standard strategies with
non-empty prompts, and ground truth, guided prompt, gpt instance and context
data all present. -/
def cfg4 : SearchConfig :=
  { max_search_attempts := 2, max_search_depth := 2, max_strategies := 3,
    efficient_search := true,
    strategies := standardStrategies "pB" "pE" "pV" "pC",
    guided_prompt := "gp", ground_truth := "gt",
    has_gpt := true, has_context := true }

/-- The same scenario with a max_strategies cap of four, large enough not to
cut the loop short. -/
def cfg4cap4 : SearchConfig := { cfg4 with max_strategies := 4 }

/-- Environment of the bounded-search scenario: a verification oracle that
reports incorrect on every check, refinement calls that each return a fresh
distinct result, and a non-empty guided reply. -/
def env4 : SearchEnv :=
  { oracle := fun _ => false,
    refineResult := fun k _ => "refined " ++ toString k,
    refineReasoning := fun k => "reasoning " ++ toString k,
    guidedResult := "guided result" }

/-- A search state as left by a refinement loop that ended without a
verified correct answer, used to evaluate the guided fallback. -/
def st5 : SearchState :=
  { current_result := "cur",
    strategies_used := ["Attempt 1-1: Backtracking"],
    reasoning_trace := ["r"],
    found_correct_answer := false,
    refineCalls := 1, guidedCalls := 0, oracleCalls := 2,
    callLog := [(0, "Backtracking")] }

/-! ## Theorems -/

/-- C1: the specified ordering invariant requires append_result to complete
before mark_processed in both branches of the worker pool driver. The
evaluation shows that the normal branch appends first and then marks, while
the exception branch marks the id processed before appending the error
record, so the invariant fails on the exception branch. -/
theorem C1_driver_ordering_eval :
    handleCompletedFuture "a01-000u" false =
      [DriverEvent.appendResult "a01-000u",
       DriverEvent.markProcessed "a01-000u"] ∧
    handleCompletedFuture "a01-000u" true =
      [DriverEvent.markProcessed "a01-000u",
       DriverEvent.appendResult "a01-000u"] :=
  ⟨rfl, rfl⟩

/-- C2 counterexample: with a failing durable write, append_result and
mark_processed log the failure but return to the caller without raising,
contradicting the claim that the failure is surfaced by propagation. -/
theorem C2_counterexample :
    (append_result (StoreDoc.parsed []) "rec" true).raised = false ∧
    (append_result (StoreDoc.parsed []) "rec" true).logged = true ∧
    (mark_processed ⟨∅, ∅, 0⟩ "a01-000u" true).raised = false ∧
    (mark_processed ⟨∅, ∅, 0⟩ "a01-000u" true).logged = true :=
  ⟨rfl, rfl, rfl, rfl⟩

/-- C2 amended: for every store document, record, tracker state and id, a
failing durable write inside append_result or inside the persistence step of
mark_processed is logged but the exception is swallowed: both calls return
normally to the caller. -/
theorem C2_amended :
    ∀ (doc : StoreDoc) (record : String) (s : TrackerState) (id : String),
      (append_result doc record true).raised = false ∧
      (append_result doc record true).logged = true ∧
      (mark_processed s id true).raised = false ∧
      (mark_processed s id true).logged = true := by
  intro doc record s id
  exact ⟨rfl, rfl, rfl, rfl⟩

/-- C3 counterexample: a verification reply containing both true and false
but starting with true is classified as correct by the code, while the
specified rule classifies it as incorrect. -/
theorem C3_counterexample :
    check_answer_classify "True. False." = true ∧
    spec_classify "True. False." = false := by
  exact ⟨by decide, by decide⟩

/-- C3 amended: the code classifies the reply as correct iff the lowercased,
stripped reply contains true and not false, or starts with true, or equals
true; the extra start-with clause makes replies containing both tokens
correct when they begin with true. -/
theorem C3_amended : ∀ v : String,
    check_answer_classify v =
      ((containsL "true".data (pyStrip (lowerL v.data)) &&
        !containsL "false".data (pyStrip (lowerL v.data))) ||
       ("true".data.isPrefixOf (pyStrip (lowerL v.data)) ||
        pyStrip (lowerL v.data) == "true".data)) := by
  intro v
  simp only [check_answer_classify]
  cases h1 : containsL "true".data (pyStrip (lowerL v.data)) &&
      !containsL "false".data (pyStrip (lowerL v.data)) <;>
    cases h2 : "true".data.isPrefixOf (pyStrip (lowerL v.data)) ||
        pyStrip (lowerL v.data) == "true".data <;>
      simp [h1, h2]

/-- C6: appending to a store whose backing document is unparsable does not
raise; the contents are treated as the empty collection and the store ends
as a valid one-element collection holding exactly the new record. -/
theorem C6_corrupt_store_recovery : ∀ record : String,
    append_result StoreDoc.corrupt record false =
      { store := StoreDoc.parsed [record], raised := false,
        logged := false } := by
  intro record
  rfl

/-- C10: after mark_processed the id is reported processed; a second
mark_processed with the same id leaves the whole tracker state, including
the persisted id set and total_processed count, unchanged; and is_processed
is the pure membership check on the in-memory set and produces no new
state. -/
theorem C10_tracker_algebra :
    ∀ (s : TrackerState) (id : String) (writeFails : Bool),
      is_processed (mark_processed s id writeFails).state id = true ∧
      (mark_processed (mark_processed s id writeFails).state id
          writeFails).state = (mark_processed s id writeFails).state ∧
      is_processed s id = decide (id ∈ s.mem) := by
  intro s id b
  refine ⟨?_, ?_, rfl⟩
  · cases b <;> simp [mark_processed, is_processed]
  · cases b <;> simp [mark_processed]

/-- The initial phase issues no refinement call. -/
theorem initialPhase_refineCalls (cfg : SearchConfig) (env : SearchEnv)
    (initial : String) : (initialPhase cfg env initial).refineCalls = 0 := by
  simp only [initialPhase]
  split <;> rfl

/-- The guided fallback issues no refinement call. -/
theorem guidedPhase_refineCalls (cfg : SearchConfig) (env : SearchEnv)
    (s : SearchState) : (guidedPhase cfg env s).refineCalls = s.refineCalls := by
  simp only [guidedPhase]
  split
  · split
    · split <;> rfl
    · rfl
  · rfl

/-- Each iteration of the inner depth loop issues at most one refinement
call, so a run with dRem iterations remaining adds at most dRem calls. -/
theorem depthLoop_refineCalls_le (cfg : SearchConfig) (env : SearchEnv)
    (a : Nat) : ∀ (dRem dIdx : Nat) (s : SearchState),
    (depthLoop cfg env a dRem dIdx s).refineCalls ≤ s.refineCalls + dRem := by
  intro dRem
  induction dRem with
  | zero => intro dIdx s; simp [depthLoop]
  | succ n ih =>
      intro dIdx s
      simp only [depthLoop]
      split
      · omega
      · split
        · exact (ih (dIdx + 1) s).trans (by omega)
        · rename_i name prompt heq
          split
          · exact (ih (dIdx + 1) s).trans (by omega)
          · split
            · exact (ih (dIdx + 1) _).trans (by simp; omega)
            · split
              · split
                · simp
                · exact (ih (dIdx + 1) _).trans (by simp; omega)
              · exact (ih (dIdx + 1) _).trans (by simp; omega)

/-- The outer loop with a given amount of fuel adds at most fuel times
max_search_depth refinement calls. -/
theorem outerLoop_refineCalls_le (cfg : SearchConfig) (env : SearchEnv) :
    ∀ (fuel a : Nat) (s : SearchState),
      (outerLoop cfg env fuel a s).refineCalls ≤
        s.refineCalls + fuel * cfg.max_search_depth := by
  intro fuel
  induction fuel with
  | zero => intro a s; simp [outerLoop]
  | succ n ih =>
      intro a s
      simp only [outerLoop]
      split
      · omega
      · have h1 := depthLoop_refineCalls_le cfg env a cfg.max_search_depth 0 s
        split
        · rw [Nat.succ_mul]; omega
        · have h2 := ih (a + 1) (depthLoop cfg env a cfg.max_search_depth 0 s)
          rw [Nat.succ_mul]; omega

/-- A full apply_all_strategies run issues at most max_search_attempts times
max_search_depth refinement calls. -/
theorem apply_all_strategies_refineCalls_le (cfg : SearchConfig)
    (env : SearchEnv) (initial : String) :
    (apply_all_strategies cfg env initial).refineCalls ≤
      cfg.max_search_attempts * cfg.max_search_depth := by
  have h0 := initialPhase_refineCalls cfg env initial
  simp only [apply_all_strategies]
  split
  · simpa using Nat.le_of_eq h0 |>.trans (Nat.zero_le _)
  · have h1 := guidedPhase_refineCalls cfg env
      (outerLoop cfg env cfg.max_search_attempts 0 (initialPhase cfg env initial))
    have h2 := outerLoop_refineCalls_le cfg env cfg.max_search_attempts 0
      (initialPhase cfg env initial)
    omega

/-- C4 counterexample: in the specified scenario, with the max_strategies
default of three that the function signature supplies, apply_all_strategies
performs three refinement calls, not the four the claim requires. -/
theorem C4_counterexample :
    (apply_all_strategies cfg4 env4 "initial").refineCalls = 3 ∧
    ¬ (apply_all_strategies cfg4 env4 "initial").refineCalls = 4 := by
  exact ⟨by decide, by decide⟩

/-- C4 amended: in the always-incorrect scenario with max_search_attempts
two and max_search_depth two, the refinement loop is additionally capped by
the max_strategies parameter: with its default of three the run performs
exactly three refinement calls, with a cap of four it performs exactly four;
in both cases exactly one guided call is made, and for every environment the
loop never performs more than two times two refinement calls. -/
theorem C4_amended :
    (apply_all_strategies cfg4 env4 "initial").refineCalls = 3 ∧
    (apply_all_strategies cfg4 env4 "initial").guidedCalls = 1 ∧
    (apply_all_strategies cfg4cap4 env4 "initial").refineCalls = 4 ∧
    (apply_all_strategies cfg4cap4 env4 "initial").guidedCalls = 1 ∧
    (∀ (env : SearchEnv) (initial : String),
      (apply_all_strategies cfg4 env initial).refineCalls ≤ 4) ∧
    (∀ (env : SearchEnv) (initial : String),
      (apply_all_strategies cfg4cap4 env initial).refineCalls ≤ 4) := by
  refine ⟨by decide, by decide, by decide, by decide, ?_, ?_⟩
  · intro env initial
    exact apply_all_strategies_refineCalls_le cfg4 env initial
  · intro env initial
    exact apply_all_strategies_refineCalls_le cfg4cap4 env initial

/-- C5: when the refinement loop ends without a verified correct answer and
efficient_search is enabled with ground truth, gpt instance, guided prompt
and context present, and the guided call returns a non-empty result, the
final state has found_correct_answer true, records Guided Analysis, issues
no further verification-oracle call, and carries the guided result. -/
theorem C5_guided_policy :
    ∀ (cfg : SearchConfig) (env : SearchEnv) (s : SearchState),
      s.found_correct_answer = false →
      cfg.efficient_search = true →
      (cfg.ground_truth != "") = true →
      cfg.has_gpt = true →
      (cfg.guided_prompt != "") = true →
      cfg.has_context = true →
      (env.guidedResult != "") = true →
      (guidedPhase cfg env s).found_correct_answer = true ∧
      (guidedPhase cfg env s).strategies_used =
        s.strategies_used ++ ["Guided Analysis"] ∧
      (guidedPhase cfg env s).oracleCalls = s.oracleCalls ∧
      (guidedPhase cfg env s).current_result = env.guidedResult := by
  intro cfg env s h1 h2 h3 h4 h5 h6 h7
  simp [guidedPhase, h1, h2, h3, h4, h5, h6, h7]

/-- C5 witness: the guided fallback evaluated on a concrete configuration,
environment and loop-end state. -/
theorem C5_guided_policy_witness :
    (guidedPhase cfg4 env4 st5).found_correct_answer = true ∧
    (guidedPhase cfg4 env4 st5).strategies_used =
      st5.strategies_used ++ ["Guided Analysis"] ∧
    (guidedPhase cfg4 env4 st5).oracleCalls = st5.oracleCalls ∧
    (guidedPhase cfg4 env4 st5).current_result = env4.guidedResult :=
  C5_guided_policy cfg4 env4 st5 rfl rfl rfl rfl rfl rfl rfl

/-- Every call-log entry the depth loop appends records the strategy at
index attempt-counter modulo the strategy-list length; the loop preserves
that property of the incoming log. -/
theorem depthLoop_callLog (cfg : SearchConfig) (env : SearchEnv) (a : Nat) :
    ∀ (dRem dIdx : Nat) (s : SearchState),
      (∀ e ∈ s.callLog, ∃ p,
        cfg.strategies[e.1 % cfg.strategies.length]? = some (e.2, p)) →
      ∀ e ∈ (depthLoop cfg env a dRem dIdx s).callLog, ∃ p,
        cfg.strategies[e.1 % cfg.strategies.length]? = some (e.2, p) := by
  intro dRem
  induction dRem with
  | zero => intro dIdx s hs; simpa [depthLoop] using hs
  | succ n ih =>
      intro dIdx s hs
      simp only [depthLoop]
      split
      · exact hs
      · split
        · exact ih (dIdx + 1) s hs
        · rename_i name prompt heq
          split
          · exact ih (dIdx + 1) s hs
          · have hs1 : ∀ e ∈ s.callLog ++ [(a, name)], ∃ p,
                cfg.strategies[e.1 % cfg.strategies.length]? = some (e.2, p) := by
              intro e he
              rcases List.mem_append.mp he with h | h
              · exact hs e h
              · rcases List.mem_singleton.mp h with rfl
                exact ⟨prompt, heq⟩
            split
            · exact ih (dIdx + 1) _ (by simpa using hs1)
            · split
              · split
                · simpa using hs1
                · exact ih (dIdx + 1) _ (by simpa using hs1)
              · exact ih (dIdx + 1) _ (by simpa using hs1)

/-- The outer loop preserves the call-log property established by the depth
loop. -/
theorem outerLoop_callLog (cfg : SearchConfig) (env : SearchEnv) :
    ∀ (fuel a : Nat) (s : SearchState),
      (∀ e ∈ s.callLog, ∃ p,
        cfg.strategies[e.1 % cfg.strategies.length]? = some (e.2, p)) →
      ∀ e ∈ (outerLoop cfg env fuel a s).callLog, ∃ p,
        cfg.strategies[e.1 % cfg.strategies.length]? = some (e.2, p) := by
  intro fuel
  induction fuel with
  | zero => intro a s hs; simpa [outerLoop] using hs
  | succ n ih =>
      intro a s hs
      simp only [outerLoop]
      split
      · exact hs
      · have h1 := depthLoop_callLog cfg env a cfg.max_search_depth 0 s hs
        split
        · exact h1
        · exact ih (a + 1) _ h1

/-- The guided fallback leaves the call log unchanged. -/
theorem guidedPhase_callLog (cfg : SearchConfig) (env : SearchEnv)
    (s : SearchState) : (guidedPhase cfg env s).callLog = s.callLog := by
  simp only [guidedPhase]
  split
  · split
    · split <;> rfl
    · rfl
  · rfl

/-- The initial phase logs no refinement call. -/
theorem initialPhase_callLog (cfg : SearchConfig) (env : SearchEnv)
    (initial : String) : (initialPhase cfg env initial).callLog = [] := by
  simp only [initialPhase]
  split <;> rfl

/-- C9 amended, engine path: every refinement call logged by
apply_all_strategies uses the strategy at index attempt-counter modulo the
length of the fixed strategy list; the selection is a deterministic function
of the attempt counter. -/
theorem C9_round_robin :
    ∀ (cfg : SearchConfig) (env : SearchEnv) (initial : String)
      (e : Nat × String),
      e ∈ (apply_all_strategies cfg env initial).callLog →
      ∃ p, cfg.strategies[e.1 % cfg.strategies.length]? = some (e.2, p) := by
  intro cfg env initial e he
  have h0 : ∀ x ∈ (initialPhase cfg env initial).callLog, ∃ p,
      cfg.strategies[x.1 % cfg.strategies.length]? = some (x.2, p) := by
    intro x hx
    rw [initialPhase_callLog] at hx
    simp at hx
  simp only [apply_all_strategies] at he
  split at he
  · exfalso
    have : e ∈ (initialPhase cfg env initial).callLog := he
    rw [initialPhase_callLog] at this
    simp at this
  · rw [guidedPhase_callLog] at he
    exact outerLoop_callLog cfg env cfg.max_search_attempts 0 _ h0 e he

/-- C9 witness: the engine run of the bounded-search scenario logs its third
refinement call at outer attempt one with the strategy at index one modulo
four of the fixed list. -/
theorem C9_round_robin_witness :
    ∃ p, cfg4.strategies[1 % cfg4.strategies.length]? =
      some ("Exploring New Paths", p) :=
  C9_round_robin cfg4 env4 "initial" (1, "Exploring New Paths") (by decide)

/-- C9 counterexample: in the process_sample loop of multimodal_simply the
strategy is drawn from the random stream, so two runs at the same attempt
counter and call index can select different strategies, and the drawn
strategy need not be the round-robin element of the claim. -/
theorem C9_counterexample :
    simplyChooseStrategy (fun _ => (2 : Fin 4)) 0 = "Verification" ∧
    simplyChooseStrategy (fun _ => (0 : Fin 4)) 0 = "Backtracking" ∧
    simplyChooseStrategy (fun _ => (2 : Fin 4)) 0 ≠
      simplyChooseStrategy (fun _ => (0 : Fin 4)) 0 := by
  refine ⟨rfl, rfl, ?_⟩
  decide

/-- C7: the conclusion extractor is a total function of its two arguments:
it always returns a string (never raises, modelled by totality of the
embedding), returns the empty string exactly when the input is empty or
whitespace-only, and is deterministic in the sense that identical text and
content-type yield identical results. -/
theorem C7_extractor_safety : ∀ (text content_type : String),
    (∃ r : String, extract_final_conclusion text content_type = r) ∧
    ((pyStrip text.data).isEmpty = true →
      extract_final_conclusion text content_type = "") ∧
    (∀ (text2 ct2 : String), text = text2 → content_type = ct2 →
      extract_final_conclusion text content_type =
        extract_final_conclusion text2 ct2) := by
  intro text ct
  refine ⟨⟨_, rfl⟩, ?_, ?_⟩
  · intro h
    simp [extract_final_conclusion, h]
  · intro t2 c2 h1 h2
    rw [h1, h2]

/-- C7 witness: the extractor evaluated on a whitespace-only input and on a
repeated identical input. -/
theorem C7_extractor_safety_witness :
    extract_final_conclusion " \n\t " "ocr" = "" ∧
    extract_final_conclusion "abc" "ocr" =
      extract_final_conclusion "abc" "ocr" :=
  ⟨(C7_extractor_safety " \n\t " "ocr").2.1 (by decide),
   (C7_extractor_safety "abc" "ocr").2.2 "abc" "ocr" rfl rfl⟩

/-- C8: on the literal structured input with the ocr content type the
extractor returns the conclusion with the emphasis formatting stripped. -/
theorem C8_deterministic_extraction :
    extract_final_conclusion "**Final Conclusion** The sign reads STOP"
      "ocr" = "The sign reads STOP" := by
  decide

end Moremi
